import Mathlib

/-
Verification of the sql-chain core (package sqlchain, chain.go) of
CovenantSQL against its specification.

Shallow embedding conventions:
- machine integers (int32, uint32, uint64) are modelled as Int / Nat, with
  explicit mod-2^32 arithmetic where the code converts between them;
- byte slices are List Nat (each element a byte value);
- hashes, node ids, public keys and account addresses are abstract Nat
  identifiers (external crypto primitives are injective maps on them);
- external effects that can fail (leveldb Put, block signature verification,
  SQL replay) are modelled by explicit Bool / Option parameters recording
  the collaborator's outcome;
- components whose source files are not available (runtime, blockIndex,
  ackIndex, crypto, proto.Peers) are modelled from the specification, with
  a doc comment marking each such definition.
-/

/-- Query type of a request: read or write (types.QueryType). -/
inductive QueryType where
  | read
  | write
deriving DecidableEq

/-- Signed request header: the signing client identifies the user
(types.SignedRequestHeader, fields used by chain.go). -/
structure RequestHeader where
  signee : Nat
  queryType : QueryType
deriving DecidableEq

/-- Request: header plus the number of queries in its payload
(len(req.Payload.Queries) is all that billing consumes). -/
structure Request where
  header : RequestHeader
  queriesCount : Nat
deriving DecidableEq

/-- Signed response header (types.SignedResponseHeader, fields used by
chain.go): timestamps, miner account, row statistics, content hash, signer. -/
structure ResponseHeader where
  requestTimestamp : Int
  responseTimestamp : Int
  responseAccount : Nat
  rowCount : Nat
  affectedRows : Nat
  hash : Nat
  signee : Nat
deriving DecidableEq

/-- Signed acknowledgement header (types.SignedAckHeader, fields used by
chain.go). `verifyOk` records the outcome of the external signature check
ack.Verify(). -/
structure Ack where
  requestTimestamp : Int
  responseTimestamp : Int
  hash : Nat
  responseHash : Nat
  signee : Nat
  verifyOk : Bool
deriving DecidableEq

/-- Query transaction packed in a block: a request and its response header
(types.QueryAsTx). -/
structure QueryAsTx where
  request : Request
  response : ResponseHeader
deriving DecidableEq

/-- Block (types.Block, fields used by chain.go). `blockHash` is the hash of
the signed header, `signee` the producer's public key, and `verifyOk` records
the outcome of the external signature check block.Verify(). -/
structure Block where
  producer : Nat
  parentHash : Nat
  blockHash : Nat
  genesisHash : Nat
  timestamp : Int
  signee : Nat
  failedReqs : List Request
  queryTxs : List QueryAsTx
  acks : List Ack
  verifyOk : Bool
deriving DecidableEq

/-- heightToKey from chain.go: 4-byte big-endian encoding of uint32(h).
uint32OfInt models Go's int32-to-uint32 conversion (mod 2^32). -/
def uint32OfInt (h : Int) : Nat :=
  (h % 4294967296).toNat

/-- int32OfUint models Go's uint32-to-int32 conversion (two's complement). -/
def int32OfUint (n : Nat) : Int :=
  if n < 2147483648 then (n : Int) else (n : Int) - 4294967296

/-- binary.BigEndian.PutUint32: most significant byte first. -/
def putUint32BE (n : Nat) : List Nat :=
  [n / 16777216 % 256, n / 65536 % 256, n / 256 % 256, n % 256]

/-- binary.BigEndian.Uint32 on the first four bytes of a slice. -/
def uint32BE : List Nat → Nat
  | b0 :: b1 :: b2 :: b3 :: _ => b0 * 16777216 + b1 * 65536 + b2 * 256 + b3
  | _ => 0

/-- heightToKey converts a height in int32 to a 4-byte big-endian key
(chain.go lines 73-77). -/
def heightToKey (h : Int) : List Nat :=
  putUint32BE (uint32OfInt h)

/-- keyWithSymbolToHeight converts a height back from a tagged key: returns -1
for keys shorter than 8 bytes, otherwise decodes bytes 4..8 as a big-endian
uint32 reinterpreted as int32 (chain.go lines 88-93). -/
def keyWithSymbolToHeight (k : List Nat) : Int :=
  if k.length < 8 then -1 else int32OfUint (uint32BE (k.drop 4))

/-- Modelled from the spec: blockNode of the block index (blockindex.go is not
in src/). A node mirrors a block: hash, height derived from the timestamp,
count = parent.count + 1 (genesis 0), a parent back-reference, and an optional
cached block body that may be dropped without invalidating the node. -/
inductive BlockNode where
  | mk (height : Int) (count : Int) (hash : Nat) (cached : Option Block)
       (parent : Option BlockNode)

/-- Height of a block node. -/
def BlockNode.height : BlockNode → Int
  | .mk h _ _ _ _ => h

/-- Count of a block node (0-based distance from genesis). -/
def BlockNode.count : BlockNode → Int
  | .mk _ c _ _ _ => c

/-- Hash of a block node. -/
def BlockNode.hash : BlockNode → Nat
  | .mk _ _ x _ _ => x

/-- Cached block body of a node, if not yet evicted. -/
def BlockNode.cached : BlockNode → Option Block
  | .mk _ _ _ b _ => b

/-- Parent back-reference of a node (none for genesis). -/
def BlockNode.parent : BlockNode → Option BlockNode
  | .mk _ _ _ _ p => p

/-- Modelled from the spec: newBlockNode of the block index (blockindex.go is
not in src/): registers the block's hash, the given height, count =
parent.count + 1 (genesis = 0), and caches the body. -/
def newBlockNode (h : Int) (b : Block) (parent : Option BlockNode) : BlockNode :=
  .mk h (match parent with | some p => p.count + 1 | none => 0)
    b.blockHash (some b) parent

/-- Modelled from the spec: the ack index (ackindex.go is not in src/).
Height-bucketed records of pending responses and of registered
acknowledgements, kept as (height, record) association lists. -/
structure AckIndex where
  responses : List (Int × ResponseHeader)
  acks : List (Int × Ack)
deriving DecidableEq

/-- Modelled from the spec: ackIndex.addResponse records a response in bucket
h; the response is then awaiting acknowledgement. -/
def AckIndex.addResponse (ai : AckIndex) (h : Int) (r : ResponseHeader) :
    Except Unit AckIndex :=
  .ok ⟨(h, r) :: ai.responses, ai.acks⟩

/-- Error kinds of the chain core (errors.go values used by chain.go, plus
the failure kinds of the spec-modelled ack index). -/
inductive ChainErr where
  | parentNotFound
  | invalidBlock
  | unknownProducer
  | invalidProducer
  | queryExpired
  | storageError
  | stateError
  | badSignature
  | responseNotFound
  | signMismatch
  | ackNotFound
deriving DecidableEq

/-- Modelled from the spec: ackIndex.register associates an ack with a
previously-seen response in bucket h; it fails if the response is absent or
the signature is mismatched. -/
def AckIndex.register (ai : AckIndex) (h : Int) (ack : Ack) :
    Except ChainErr AckIndex :=
  match ai.responses.find? (fun p => p.1 == h && p.2.hash == ack.responseHash) with
  | none => .error .responseNotFound
  | some p =>
    if p.2.signee = ack.signee then .ok ⟨ai.responses, (h, ack) :: ai.acks⟩
    else .error .signMismatch

/-- Modelled from the spec: ackIndex.remove deletes an ack from bucket h
(used when a block includes the ack); fails if the ack is absent. -/
def AckIndex.remove (ai : AckIndex) (h : Int) (ack : Ack) :
    Except ChainErr AckIndex :=
  if ai.acks.any (fun p => p.1 == h && p.2.hash == ack.hash) then
    .ok ⟨ai.responses, ai.acks.filter (fun p => !(p.1 == h && p.2.hash == ack.hash))⟩
  else .error .ackNotFound

/-- Modelled from the spec: ackIndex.advance drops all buckets with
height < minValid. -/
def AckIndex.advance (ai : AckIndex) (minValid : Int) : AckIndex :=
  ⟨ai.responses.filter (fun p => decide (minValid ≤ p.1)),
   ai.acks.filter (fun p => decide (minValid ≤ p.1))⟩

/-- Modelled from the spec: the constant runtime fields (runtime.go is not in
src/): genesis timestamp, turn period, local server identity, peer list and
query TTL in turns. -/
structure RuntimeConfig where
  genesis : Int
  period : Int
  server : Nat
  peers : List Nat
  queryTTL : Int

/-- Modelled from the spec: runtime.getHeightFromTime (runtime.go is not in
src/): height-of(t) = floor((t - genesis) / period). -/
def getHeightFromTime (env : RuntimeConfig) (t : Int) : Int :=
  (t - env.genesis).fdiv env.period

/-- Modelled from the spec: proto.Peers.Find (external proto package):
the index of the first occurrence of a node id in the peer list, if any. -/
def peersFind : List Nat → Nat → Option Nat
  | [], _ => none
  | p :: ps, x => if p = x then some 0 else (peersFind ps x).map (· + 1)

/-- Modelled from the spec: crypto.PubKeyHash, the external primitive mapping
a public key to an account address; modelled as an injective (identity) map
on abstract key identifiers, and total (the error branch of the external
primitive is not modelled). -/
def pubKeyHash (pk : Nat) : Nat := pk

/-- Head state of the chain: the tip node, its hash and its height, replaced
atomically on every extension (state struct used by chain.go). -/
structure HeadState where
  node : BlockNode
  Head : Nat
  Height : Int

/-- State of a chain instance, as mutated by the chain.go operations under
verification: head state, block index (list of registered nodes), ack index,
block store and query store contents (keys modelled as (height, hash) pairs,
faithful to the tag-height-hash byte layout verified separately on
heightToKey / keyWithSymbolToHeight), the next-turn counter, the log of
blocks replayed into SQL state, and the heights sent on the height-advance
channel. -/
structure ChainState where
  head : HeadState
  bi : List BlockNode
  ai : AckIndex
  bdb : List (Int × Nat)
  tdb : List (Int × Nat)
  nextTurn : Int
  replayLog : List Nat
  heightsSent : List Int

/-- Modelled from the spec: runtime.getMinValidHeight (runtime.go is not in
src/): min-valid-height = head.height - query-TTL. -/
def getMinValidHeight (env : RuntimeConfig) (c : ChainState) : Int :=
  c.head.Height - env.queryTTL

/-- Modelled from the spec: runtime.isMyTurn (runtime.go is not in src/):
(next-turn - 1) mod number-of-peers equals the index of the local server in
the peer list (false if the server is absent). Go's % on int32 is truncated
remainder, hence Int.tmod. -/
def isMyTurn (env : RuntimeConfig) (c : ChainState) : Bool :=
  match peersFind env.peers env.server with
  | some i => (c.nextTurn - 1).tmod (Int.ofNat env.peers.length) == Int.ofNat i
  | none => false

/-- pushBlock (chain.go lines 330-398): build the new node and head state,
put the encoded block into the block store (outcome of the external leveldb
Put modelled by putOk) and, only if the put succeeded, swap head, add the
node to the block index, then best-effort add each query tx's response to the
ack index under the height of its request timestamp and remove each ack of
the block from the ack index (failures only logged). On put failure the
error is returned with no in-memory mutation. -/
def pushBlock (env : RuntimeConfig) (putOk : Bool) (c : ChainState) (b : Block) :
    ChainState × Except ChainErr Unit :=
  let h := getHeightFromTime env b.timestamp
  let node := newBlockNode h b (some c.head.node)
  let head' : HeadState := ⟨node, node.hash, node.height⟩
  if putOk then
    let c1 : ChainState :=
      { c with bdb := (node.height, node.hash) :: c.bdb, head := head',
               bi := node :: c.bi }
    let ai1 := b.queryTxs.foldl
      (fun ai tx =>
        match ai.addResponse (getHeightFromTime env tx.response.requestTimestamp)
            tx.response with
        | .ok ai' => ai'
        | .error _ => ai) c1.ai
    let ai2 := b.acks.foldl
      (fun ai a =>
        match ai.remove (getHeightFromTime env a.requestTimestamp) a with
        | .ok ai' => ai'
        | .error _ => ai) ai1
    ({ c1 with ai := ai2 }, .ok ())
  else (c, .error .storageError)

/-- pushAckedQuery (chain.go lines 401-424): compute the store height from the
ack's response timestamp, register the ack in the ack index under the height
of its request timestamp, and only then put the encoded ack into the query
store (outcome of the external leveldb Put modelled by putOk). A register
failure returns before the put; a put failure returns the error after the
in-memory registration already happened. -/
def pushAckedQuery (env : RuntimeConfig) (putOk : Bool) (c : ChainState)
    (ack : Ack) : ChainState × Except ChainErr Unit :=
  let h := getHeightFromTime env ack.responseTimestamp
  match c.ai.register (getHeightFromTime env ack.requestTimestamp) ack with
  | .error e => (c, .error e)
  | .ok ai' =>
    if putOk then ({ c with ai := ai', tdb := (h, ack.hash) :: c.tdb }, .ok ())
    else ({ c with ai := ai' }, .error .storageError)

/-- VerifyAndPushAckedQuery (chain.go lines 902-916): reject with QueryExpired
when the height of the ack's response timestamp is below min-valid-height,
then verify the ack signature, then pushAckedQuery. -/
def verifyAndPushAckedQuery (env : RuntimeConfig) (putOk : Bool)
    (c : ChainState) (ack : Ack) : ChainState × Except ChainErr Unit :=
  if getHeightFromTime env ack.responseTimestamp < getMinValidHeight env c then
    (c, .error .queryExpired)
  else if ack.verifyOk then pushAckedQuery env putOk c ack
  else (c, .error .badSignature)

/-- Expected producer slot computed by CheckAndPushNewBlock (chain.go lines
835-841): (next-turn - 1) % total when the peer list is non-empty, -1
otherwise; Go's % on int32 is truncated remainder, hence Int.tmod. -/
def nextProducerIdx (env : RuntimeConfig) (c : ChainState) : Int :=
  if 0 < env.peers.length then
    (c.nextTurn - 1).tmod (Int.ofNat env.peers.length)
  else -1

/-- CheckAndPushNewBlock (chain.go lines 831-899): treat a block matching the
current head (same height and hash) as already applied; reject a parent-hash
mismatch with InvalidBlock; verify the block signature (outcome of the
external check carried by the block's verifyOk field); short-circuit a
self-produced block to pushBlock; otherwise resolve the producer in the peer
list (UnknownProducer if absent, InvalidProducer if not the expected slot),
replay the block against SQL state (outcome modelled by replayOk, a success
appending the block hash to the replay log), and pushBlock. -/
def checkAndPushNewBlock (env : RuntimeConfig) (replayOk putOk : Bool)
    (c : ChainState) (b : Block) : ChainState × Except ChainErr Unit :=
  let height := getHeightFromTime env b.timestamp
  if c.head.Height = height ∧ c.head.Head = b.blockHash then (c, .ok ())
  else if b.parentHash ≠ c.head.Head then (c, .error .invalidBlock)
  else if !b.verifyOk then (c, .error .badSignature)
  else if b.producer = env.server then pushBlock env putOk c b
  else
    match peersFind env.peers b.producer with
    | none => (c, .error .unknownProducer)
    | some idx =>
      if Int.ofNat idx ≠ nextProducerIdx env c then (c, .error .invalidProducer)
      else if !replayOk then (c, .error .stateError)
      else pushBlock env putOk { c with replayLog := c.replayLog ++ [b.blockHash] } b

/-- Steps of runCurrentTurn, in the order the code performs them: the optional
block production attempt, then the deferred tail — stat(), pruneBlockCache(),
setNextTurn(), ackIndex.advance(min-valid), and the send of head.Height on
the height-advance channel. -/
inductive TurnAction where
  | produce
  | emitStats
  | pruneCache
  | advanceTurn
  | ackAdvance
  | pushHeight
deriving DecidableEq

/-- runCurrentTurn (chain.go lines 579-604): log divergence, produce a block
when it is the local node's turn (production effects flow through the
pending-block channel and SQL state, outside this state; its attempt is
recorded as an action), and always run the deferred tail: emit stats, prune
the body cache (an in-place eviction of cached bodies, recorded as an
action), advance next-turn, advance the ack index to min-valid-height, and
send head.Height on the height-advance channel. -/
def runCurrentTurn (env : RuntimeConfig) (c : ChainState) :
    ChainState × List TurnAction :=
  let body : List TurnAction := if isMyTurn env c then [TurnAction.produce] else []
  let c1 : ChainState := { c with nextTurn := c.nextTurn + 1 }
  let c2 : ChainState := { c1 with ai := c1.ai.advance (getMinValidHeight env c1) }
  let c3 : ChainState := { c2 with heightsSent := c2.heightsSent ++ [c2.head.Height] }
  (c3, body ++ [TurnAction.emitStats, TurnAction.pruneCache,
    TurnAction.advanceTurn, TurnAction.ackAdvance, TurnAction.pushHeight])

/-- Association-list lookup with Go map read semantics (present or absent). -/
def alGet {α : Type} : List (Nat × α) → Nat → Option α
  | [], _ => none
  | (k', v) :: rest, k => if k' = k then some v else alGet rest k

/-- Association-list write with Go map write semantics (replace or insert). -/
def alSet {α : Type} : List (Nat × α) → Nat → α → List (Nat × α)
  | [], k, v => [(k, v)]
  | (k', v') :: rest, k, v =>
    if k' = k then (k, v) :: rest else (k', v') :: alSet rest k v

/-- Go's `m[k] += v` on a uint64-valued map: absent keys read as zero. -/
def alAdd (m : List (Nat × Nat)) (k v : Nat) : List (Nat × Nat) :=
  alSet m k ((alGet m k).getD 0 + v)

/-- Billing accumulators of Chain.billing: usersMap (user address to cost) and
minersMap (user address to per-miner income map). -/
structure BillingMaps where
  users : List (Nat × Nat)
  miners : List (Nat × List (Nat × Nat))
deriving DecidableEq

/-- Query-tx branch of the billing loop (chain.go lines 999-1016): miner is
the response account, user is addr(request.Signee); ensure the user's inner
map exists; credit rowCount for a read query and affectedRows otherwise,
into minersMap[user][miner] and usersMap[user]. -/
def processQueryTx (maps : BillingMaps) (tx : QueryAsTx) : BillingMaps :=
  let minerAddr := tx.response.responseAccount
  let userAddr := pubKeyHash tx.request.header.signee
  let miners :=
    if (alGet maps.miners userAddr).isNone then alSet maps.miners userAddr []
    else maps.miners
  let credit :=
    if tx.request.header.queryType = QueryType.read then tx.response.rowCount
    else tx.response.affectedRows
  { miners := alSet miners userAddr
      (alAdd ((alGet miners userAddr).getD []) minerAddr credit),
    users := alAdd maps.users userAddr credit }

/-- Failed-request branch of the billing loop (chain.go lines 1018-1033):
miner is addr(block.Signee), user is addr(request.Signee); when the
(user, miner) pair is absent the code replaces minersMap[user] with a fresh
empty map (discarding that user's previously accumulated per-miner credits);
then credit len(queries) into minersMap[user][miner] and usersMap[user]. -/
def processFailedReq (minerAddr : Nat) (maps : BillingMaps) (req : Request) :
    BillingMaps :=
  let userAddr := pubKeyHash req.header.signee
  let miners :=
    if ((alGet maps.miners userAddr).getD [] |>.lookup minerAddr).isNone then
      alSet maps.miners userAddr []
    else maps.miners
  { miners := alSet miners userAddr
      (alAdd ((alGet miners userAddr).getD []) minerAddr req.queriesCount),
    users := alAdd maps.users userAddr req.queriesCount }

/-- One block's contribution to the billing window (chain.go lines 999-1033):
all query txs, then all failed requests with miner = addr(block.Signee). -/
def billingBlock (maps : BillingMaps) (b : Block) : BillingMaps :=
  let m1 := b.queryTxs.foldl processQueryTx maps
  b.failedReqs.foldl (processFailedReq (pubKeyHash b.signee)) m1

/-- Window walk of Chain.billing (chain.go lines 991-1035): up to updatePeriod
nodes from the given node back through parent pointers; a node whose body was
evicted is recovered from the block store (modelled by the fetch oracle; Go's
FetchBlock error aborts billing with the error). -/
def billingLoop (fetch : Int → Option Block) :
    Nat → Option BlockNode → BillingMaps → Except ChainErr BillingMaps
  | 0, _, maps => .ok maps
  | _ + 1, none, maps => .ok maps
  | fuel + 1, some n, maps =>
    match n.cached.or (fetch n.height) with
    | none => .error .storageError
    | some b => billingLoop fetch fuel n.parent (billingBlock maps b)

/-- Steps of the billing trigger of processBlocks, in order: the nonce request
to the main chain, the assignment of the nonce into the UpdateBilling, the
transaction signing, the transaction submission; nilPanic marks the nil
pointer dereference that `ub.Nonce = nonceResp.Nonce` performs when billing
returned no UpdateBilling. -/
inductive BillingStep where
  | requestNonce
  | assignNonce
  | signTx
  | sendTx
  | nilPanic
deriving DecidableEq

/-- Billing trigger fragment of processBlocks (chain.go lines 704-729), as a
function of billing's returned UpdateBilling pointer (none when billing
returned an error via an early return): the billing error is only logged,
after which the code unconditionally requests an account nonce, then assigns
ub.Nonce — a nil dereference when ub is nil — then signs and submits. -/
def billingTriggerSteps (ub : Option Unit) : List BillingStep :=
  BillingStep.requestNonce ::
    match ub with
    | none => [BillingStep.nilPanic]
    | some _ => [BillingStep.assignNonce, BillingStep.signTx, BillingStep.sendTx]

/-- Billing round of processBlocks (chain.go lines 702-730): run Chain.billing
over the window from the new head node, then the trigger fragment; billing's
early error returns leave its UpdateBilling pointer nil. -/
def billingRound (fetch : Int → Option Block) (updatePeriod : Nat)
    (node : BlockNode) : List BillingStep :=
  match billingLoop fetch updatePeriod (some node) ⟨[], []⟩ with
  | .error _ => billingTriggerSteps none
  | .ok _ => billingTriggerSteps (some ())

lemma uint32BE_putUint32BE (n : Nat) (rest : List Nat) (hn : n < 4294967296) :
    uint32BE (putUint32BE n ++ rest) = n := by
  simp only [putUint32BE, List.cons_append, List.nil_append, uint32BE]
  omega

lemma int32OfUint_uint32OfInt (h : Int) (hlo : -2147483648 ≤ h)
    (hhi : h < 2147483648) : int32OfUint (uint32OfInt h) = h := by
  unfold uint32OfInt int32OfUint
  split <;> omega

lemma uint32OfInt_lt (h : Int) : uint32OfInt h < 4294967296 := by
  unfold uint32OfInt
  omega

/-- C9: for every int32 height h, 4-byte tag and trailing hash bytes,
keyWithSymbolToHeight (tag ++ heightToKey h ++ hash) = h (heightToKey and key
decoding round-trip through the big-endian 4-byte encoding); and every key
shorter than 8 bytes decodes to -1. -/
theorem c9_key_height_roundtrip (h : Int) (tag rest : List Nat)
    (htag : tag.length = 4) (hlo : -2147483648 ≤ h) (hhi : h < 2147483648) :
    keyWithSymbolToHeight (tag ++ heightToKey h ++ rest) = h ∧
    ∀ k : List Nat, k.length < 8 → keyWithSymbolToHeight k = -1 := by
  constructor
  · have hlen : ¬ (tag ++ (heightToKey h ++ rest)).length < 8 := by
      simp only [List.length_append, htag, heightToKey, putUint32BE]
      simp only [List.length_cons, List.length_nil]
      omega
    unfold keyWithSymbolToHeight
    rw [List.append_assoc, if_neg hlen, ← htag, List.drop_left]
    show int32OfUint (uint32BE (putUint32BE (uint32OfInt h) ++ rest)) = h
    rw [uint32BE_putUint32BE _ _ (uint32OfInt_lt h)]
    exact int32OfUint_uint32OfInt h hlo hhi
  · intro k hk
    unfold keyWithSymbolToHeight
    rw [if_pos hk]

/-- Witness for C9 at height 7, tag BLCK (66, 76, 67, 75) and a trailing
byte, and at the short key [1, 2, 3]. -/
theorem c9_key_height_roundtrip_witness :
    keyWithSymbolToHeight ([66, 76, 67, 75] ++ heightToKey 7 ++ [9]) = 7 ∧
    keyWithSymbolToHeight [1, 2, 3] = -1 :=
  ⟨(c9_key_height_roundtrip 7 [66, 76, 67, 75] [9] (by decide) (by decide)
      (by decide)).1,
   (c9_key_height_roundtrip 7 [66, 76, 67, 75] [9] (by decide) (by decide)
      (by decide)).2 [1, 2, 3] (by decide)⟩

/-- C5: for every block given to pushBlock, when the put into the persistent
block store fails, pushBlock returns the storage error with the whole
in-memory state — head, block index, ack index, stores — unchanged. -/
theorem c5_put_failure_leaves_state_unchanged (env : RuntimeConfig)
    (c : ChainState) (b : Block) :
    pushBlock env false c b = (c, Except.error ChainErr.storageError) := rfl

/-- C8: every invocation of runCurrentTurn — whatever the turn predicate and
production outcome — performs the produce attempt only on the local turn and
then always emits stats, prunes the body cache, advances next-turn exactly
once, advances the ack index to min-valid-height and finally pushes
head.Height onto the height-advance channel, in that order. -/
theorem c8_turn_tail_actions (env : RuntimeConfig) (c : ChainState) :
    runCurrentTurn env c =
      ({ c with nextTurn := c.nextTurn + 1,
                ai := c.ai.advance (getMinValidHeight env c),
                heightsSent := c.heightsSent ++ [c.head.Height] },
       (if isMyTurn env c then [TurnAction.produce] else []) ++
         [TurnAction.emitStats, TurnAction.pruneCache, TurnAction.advanceTurn,
          TurnAction.ackAdvance, TurnAction.pushHeight]) := rfl

/-- C6: CheckAndPushNewBlock applied to a block that is already the current
head — same height (the head invariant ties head.Height to the height of the
head block's timestamp) and same hash — returns success and changes nothing:
the state is returned exactly as it was. -/
theorem c6_head_block_is_noop (env : RuntimeConfig) (replayOk putOk : Bool)
    (c : ChainState) (b : Block)
    (h1 : c.head.Height = getHeightFromTime env b.timestamp)
    (h2 : c.head.Head = b.blockHash) :
    checkAndPushNewBlock env replayOk putOk c b = (c, Except.ok ()) := by
  unfold checkAndPushNewBlock
  rw [if_pos ⟨h1, h2⟩]

/-- Witness for C6: a two-peer chain at head height 1 whose head block (hash
5, timestamp 15, genesis 0, period 10) is advised back to the same node. -/
theorem c6_head_block_is_noop_witness :
    checkAndPushNewBlock ⟨0, 10, 1, [1, 2], 3⟩ true true
      ⟨⟨BlockNode.mk 1 1 5 none none, 5, 1⟩, [], ⟨[], []⟩, [], [], 2, [], []⟩
      ⟨1, 3, 5, 9, 15, 1, [], [], [], true⟩ =
      (⟨⟨BlockNode.mk 1 1 5 none none, 5, 1⟩, [], ⟨[], []⟩, [], [], 2, [], []⟩,
       Except.ok ()) :=
  c6_head_block_is_noop ⟨0, 10, 1, [1, 2], 3⟩ true true
    ⟨⟨BlockNode.mk 1 1 5 none none, 5, 1⟩, [], ⟨[], []⟩, [], [], 2, [], []⟩
    ⟨1, 3, 5, 9, 15, 1, [], [], [], true⟩ (by decide) (by decide)

/-- Counterexample to C1 as stated: the head block itself (hash 21, parent
hash 13, timestamp 25 at height 2), advised back while at head, has
ParentHash 13 different from the head hash 21, yet CheckAndPushNewBlock
returns success (the already-applied guard precedes the parent-hash check)
instead of rejecting with InvalidBlock. -/
theorem c1_head_block_not_rejected :
    checkAndPushNewBlock ⟨0, 10, 4, [4, 6], 3⟩ true true
      ⟨⟨BlockNode.mk 2 2 21 none none, 21, 2⟩, [], ⟨[], []⟩, [], [], 3, [], []⟩
      ⟨4, 13, 21, 9, 25, 4, [], [], [], true⟩ =
      (⟨⟨BlockNode.mk 2 2 21 none none, 21, 2⟩, [], ⟨[], []⟩, [], [], 3, [], []⟩,
       Except.ok ()) ∧
    (⟨4, 13, 21, 9, 25, 4, [], [], [], true⟩ : Block).parentHash ≠
      (⟨⟨BlockNode.mk 2 2 21 none none, 21, 2⟩, [], ⟨[], []⟩, [], [], 3, [], []⟩ :
        ChainState).head.Head :=
  ⟨rfl, by decide⟩

/-- C1 amended: every block whose ParentHash differs from the current head
hash and which is not already the current head (same height and hash) is
rejected with InvalidBlock, the state — head, block index, ack index —
returned unchanged. -/
theorem c1_parent_mismatch_rejects_unless_head (env : RuntimeConfig)
    (replayOk putOk : Bool) (c : ChainState) (b : Block)
    (h0 : ¬(c.head.Height = getHeightFromTime env b.timestamp ∧
            c.head.Head = b.blockHash))
    (h1 : b.parentHash ≠ c.head.Head) :
    checkAndPushNewBlock env replayOk putOk c b =
      (c, Except.error ChainErr.invalidBlock) := by
  unfold checkAndPushNewBlock
  rw [if_neg h0, if_pos h1]

/-- Witness for C1 amended: a block with parent hash 7 advised while the head
hash is 21. -/
theorem c1_parent_mismatch_witness :
    checkAndPushNewBlock ⟨0, 10, 4, [4, 6], 3⟩ true true
      ⟨⟨BlockNode.mk 2 2 21 none none, 21, 2⟩, [], ⟨[], []⟩, [], [], 3, [], []⟩
      ⟨6, 7, 22, 9, 25, 6, [], [], [], true⟩ =
      (⟨⟨BlockNode.mk 2 2 21 none none, 21, 2⟩, [], ⟨[], []⟩, [], [], 3, [], []⟩,
       Except.error ChainErr.invalidBlock) :=
  c1_parent_mismatch_rejects_unless_head ⟨0, 10, 4, [4, 6], 3⟩ true true
    ⟨⟨BlockNode.mk 2 2 21 none none, 21, 2⟩, [], ⟨[], []⟩, [], [], 3, [], []⟩
    ⟨6, 7, 22, 9, 25, 6, [], [], [], true⟩ (by decide) (by decide)

/-- C7: for a block that passes the already-applied, parent-hash and signature
checks and whose producer is not the local server: a producer absent from the
peer list is rejected with UnknownProducer, and a producer whose index is not
(next-turn - 1) mod number-of-peers is rejected with InvalidProducer; in both
cases the state is returned unchanged — no replay, no push. -/
theorem c7_producer_checks (env : RuntimeConfig) (replayOk putOk : Bool)
    (c : ChainState) (b : Block)
    (h0 : ¬(c.head.Height = getHeightFromTime env b.timestamp ∧
            c.head.Head = b.blockHash))
    (h1 : b.parentHash = c.head.Head)
    (h2 : b.verifyOk = true)
    (h3 : b.producer ≠ env.server) :
    (peersFind env.peers b.producer = none →
      checkAndPushNewBlock env replayOk putOk c b =
        (c, Except.error ChainErr.unknownProducer)) ∧
    ∀ idx : Nat, peersFind env.peers b.producer = some idx →
      Int.ofNat idx ≠ nextProducerIdx env c →
      checkAndPushNewBlock env replayOk putOk c b =
        (c, Except.error ChainErr.invalidProducer) := by
  constructor
  · intro hfind
    unfold checkAndPushNewBlock
    rw [if_neg h0, if_neg (not_not_intro h1), if_neg (by simp [h2]),
      if_neg h3, hfind]
  · intro idx hfind hidx
    unfold checkAndPushNewBlock
    rw [if_neg h0, if_neg (not_not_intro h1), if_neg (by simp [h2]),
      if_neg h3, hfind]
    simp only [if_pos hidx]

/-- Witness for C7: peers [4, 6] with next-turn 3; a block from the unknown
producer 8 is rejected with UnknownProducer. -/
theorem c7_producer_checks_witness :
    checkAndPushNewBlock ⟨0, 10, 4, [4, 6], 3⟩ true true
      ⟨⟨BlockNode.mk 2 2 21 none none, 21, 2⟩, [], ⟨[], []⟩, [], [], 3, [], []⟩
      ⟨8, 21, 23, 9, 25, 8, [], [], [], true⟩ =
      (⟨⟨BlockNode.mk 2 2 21 none none, 21, 2⟩, [], ⟨[], []⟩, [], [], 3, [], []⟩,
       Except.error ChainErr.unknownProducer) :=
  (c7_producer_checks ⟨0, 10, 4, [4, 6], 3⟩ true true
    ⟨⟨BlockNode.mk 2 2 21 none none, 21, 2⟩, [], ⟨[], []⟩, [], [], 3, [], []⟩
    ⟨8, 21, 23, 9, 25, 8, [], [], [], true⟩ (by decide) (by decide) (by decide)
    (by decide)).1 (by decide)

lemma register_error_ne_queryExpired (ai : AckIndex) (h : Int) (ack : Ack)
    (e : ChainErr) (he : ai.register h ack = Except.error e) :
    e ≠ ChainErr.queryExpired := by
  unfold AckIndex.register at he
  split at he
  · simp only [Except.error.injEq] at he
    subst he
    decide
  · split at he
    · exact absurd he (by simp)
    · simp only [Except.error.injEq] at he
      subst he
      decide

/-- C4 amended: VerifyAndPushAckedQuery rejects with QueryExpired exactly when
the height derived from the ack's response timestamp is below
min-valid-height; the request timestamp plays no part in the expiry check. -/
theorem c4_expired_iff_response_height_below_min (env : RuntimeConfig)
    (putOk : Bool) (c : ChainState) (ack : Ack) :
    (verifyAndPushAckedQuery env putOk c ack).2 =
        Except.error ChainErr.queryExpired ↔
      getHeightFromTime env ack.responseTimestamp < getMinValidHeight env c := by
  unfold verifyAndPushAckedQuery
  split
  · rename_i hc
    simpa using hc
  · rename_i hc
    rw [iff_false_intro hc, iff_false]
    split
    · unfold pushAckedQuery
      split
      · rename_i e he
        intro hcontra
        have he' : e = ChainErr.queryExpired := by simpa using hcontra
        exact register_error_ne_queryExpired _ _ _ _ he he'

      · split
        · intro hcontra
          simp at hcontra
        · intro hcontra
          simp at hcontra
    · intro hcontra
      simp at hcontra

/-- Counterexample to C4 as stated: with genesis 0, period 10, query TTL 1 and
head height 5 (min-valid 4), an ack whose request timestamp 30 sits at height
3 — below min-valid — but whose response timestamp 45 sits at height 4 is not
rejected as expired: the call succeeds, because the code passes the response
timestamp, not the request timestamp, to the expiry check. -/
theorem c4_request_height_not_checked :
    (verifyAndPushAckedQuery ⟨0, 10, 2, [2, 3], 1⟩ true
      ⟨⟨BlockNode.mk 5 5 99 none none, 99, 5⟩, [],
       ⟨[(3, ⟨30, 38, 7, 4, 0, 77, 8⟩)], []⟩, [], [], 6, [], []⟩
      ⟨30, 45, 55, 77, 8, true⟩).2 = Except.ok () ∧
    getHeightFromTime ⟨0, 10, 2, [2, 3], 1⟩
        (⟨30, 45, 55, 77, 8, true⟩ : Ack).requestTimestamp <
      getMinValidHeight ⟨0, 10, 2, [2, 3], 1⟩
        ⟨⟨BlockNode.mk 5 5 99 none none, 99, 5⟩, [],
         ⟨[(3, ⟨30, 38, 7, 4, 0, 77, 8⟩)], []⟩, [], [], 6, [], []⟩ :=
  ⟨rfl, by decide⟩

/-- C10: when the in-memory registration succeeds and the persistent put
fails, VerifyAndPushAckedQuery returns the storage error while the ack —
registered under the height of its request timestamp, before the put —
remains in the in-memory ack index, and the persistent query store is
untouched: the operation is not atomic on storage error. -/
theorem c10_put_failure_keeps_registered_ack (env : RuntimeConfig)
    (c : ChainState) (ack : Ack) (ai' : AckIndex)
    (hexp : ¬ getHeightFromTime env ack.responseTimestamp <
        getMinValidHeight env c)
    (hv : ack.verifyOk = true)
    (hreg : c.ai.register (getHeightFromTime env ack.requestTimestamp) ack =
        Except.ok ai') :
    (verifyAndPushAckedQuery env false c ack).2 =
        Except.error ChainErr.storageError ∧
    (verifyAndPushAckedQuery env false c ack).1.ai = ai' ∧
    (getHeightFromTime env ack.requestTimestamp, ack) ∈ ai'.acks ∧
    (verifyAndPushAckedQuery env false c ack).1.tdb = c.tdb := by
  have hmem : (getHeightFromTime env ack.requestTimestamp, ack) ∈ ai'.acks := by
    unfold AckIndex.register at hreg
    split at hreg
    · exact absurd hreg (by simp)
    · split at hreg
      · simp only [Except.ok.injEq] at hreg
        subst hreg
        exact List.mem_cons_self _ _
      · exact absurd hreg (by simp)
  unfold verifyAndPushAckedQuery pushAckedQuery
  rw [if_neg hexp, if_pos hv, hreg]
  exact ⟨rfl, rfl, hmem, rfl⟩

/-- Witness for C10: the registered response at bucket 3 is acknowledged, the
put into the query store fails, and the ack stays registered at bucket 3. -/
theorem c10_put_failure_keeps_registered_ack_witness :
    (verifyAndPushAckedQuery ⟨0, 10, 2, [2, 3], 2⟩ false
      ⟨⟨BlockNode.mk 5 5 91 none none, 91, 5⟩, [],
       ⟨[(3, ⟨31, 39, 7, 4, 0, 78, 8⟩)], []⟩, [], [], 6, [], []⟩
      ⟨31, 46, 56, 78, 8, true⟩).2 = Except.error ChainErr.storageError ∧
    (getHeightFromTime ⟨0, 10, 2, [2, 3], 2⟩
        (⟨31, 46, 56, 78, 8, true⟩ : Ack).requestTimestamp,
      (⟨31, 46, 56, 78, 8, true⟩ : Ack)) ∈
      (⟨[(3, ⟨31, 39, 7, 4, 0, 78, 8⟩)],
        [(3, ⟨31, 46, 56, 78, 8, true⟩)]⟩ : AckIndex).acks :=
  ⟨(c10_put_failure_keeps_registered_ack ⟨0, 10, 2, [2, 3], 2⟩
      ⟨⟨BlockNode.mk 5 5 91 none none, 91, 5⟩, [],
       ⟨[(3, ⟨31, 39, 7, 4, 0, 78, 8⟩)], []⟩, [], [], 6, [], []⟩
      ⟨31, 46, 56, 78, 8, true⟩
      ⟨[(3, ⟨31, 39, 7, 4, 0, 78, 8⟩)], [(3, ⟨31, 46, 56, 78, 8, true⟩)]⟩
      (by decide) rfl rfl).1,
   (c10_put_failure_keeps_registered_ack ⟨0, 10, 2, [2, 3], 2⟩
      ⟨⟨BlockNode.mk 5 5 91 none none, 91, 5⟩, [],
       ⟨[(3, ⟨31, 39, 7, 4, 0, 78, 8⟩)], []⟩, [], [], 6, [], []⟩
      ⟨31, 46, 56, 78, 8, true⟩
      ⟨[(3, ⟨31, 39, 7, 4, 0, 78, 8⟩)], [(3, ⟨31, 46, 56, 78, 8, true⟩)]⟩
      (by decide) rfl rfl).2.2.1⟩

/-- C2 is violated by the code: when the billing computation fails (here, the
window's only node has an evicted body and the block-store fetch fails), the
round is not aborted — the code still requests an account nonce from the main
chain and then dereferences the nil UpdateBilling pointer instead of
skipping the round. -/
theorem c2_billing_error_round_not_aborted :
    billingRound (fun _ => none) 5 (BlockNode.mk 1 1 5 none none) =
      [BillingStep.requestNonce, BillingStep.nilPanic] ∧
    BillingStep.requestNonce ∈
      billingRound (fun _ => none) 5 (BlockNode.mk 1 1 5 none none) :=
  ⟨rfl, by decide⟩

/-- C3 is violated by the code: in a window holding one block with a read
query tx crediting 10 rows from user 100 to miner 150 and then a failed
request of 2 queries from the same user with block signee 200, the final
usersMap has 100 mapped to 12 but the final minersMap has lost miner 150's
credit entirely: the failed-request branch replaced user 100's per-miner map
with a fresh one before crediting miner 200. -/
theorem c3_failed_req_discards_miner_credits :
    billingLoop (fun _ => none) 5
      (some (BlockNode.mk 1 1 40
        (some ⟨2, 0, 40, 9, 10, 200, [⟨⟨100, QueryType.read⟩, 2⟩],
          [⟨⟨⟨100, QueryType.read⟩, 1⟩, ⟨5, 6, 150, 10, 0, 70, 60⟩⟩], [], true⟩)
        none))
      ⟨[], []⟩ =
      Except.ok ⟨[(100, 12)], [(100, [(200, 2)])]⟩ := rfl
